import Mathlib

/-!
# GitLab project variable resource handler

A shallow embedding of `gitlab/resource_gitlab_project_variable.go`: the four
lifecycle callbacks `resourceGitlabProjectVariableCreate`, `...Read`,
`...Update` and `...Delete`, run against an explicit resource state
(`ResourceData`) and an explicit remote client (`Client`), with every remote
call recorded in a call log.
-/

set_option autoImplicit false

namespace Gitlab

/-! ## Data model -/

/-- The Go type `gitlab.VariableTypeValue` is a named string type. -/
abbrev VariableTypeValue := String

/-- The record `gitlab.ProjectVariable` returned by the API client. -/
structure ProjectVariable where
  Key : String
  Value : String
  VariableType : VariableTypeValue
  Protected : Bool
  Masked : Bool
  EnvironmentScope : String
  deriving DecidableEq, Repr

/-- The request `gitlab.CreateProjectVariableOptions`; `VariableType` is a
pointer that `stringToVariableType` may leave nil. -/
structure CreateProjectVariableOptions where
  Key : String
  Value : String
  VariableType : Option VariableTypeValue
  Protected : Bool
  Masked : Bool
  EnvironmentScope : String
  deriving DecidableEq, Repr

/-- The request `gitlab.UpdateProjectVariableOptions` (it carries no key). -/
structure UpdateProjectVariableOptions where
  Value : String
  VariableType : Option VariableTypeValue
  Protected : Bool
  Masked : Bool
  EnvironmentScope : String
  deriving DecidableEq, Repr

/-- Go `error` values met by the handler: the identifier-format error of
`parseTwoPartID`, an error built by `fmt.Errorf`, and an error produced by the
API client. -/
inductive Error where
  | idFormat (id : String)
  | errorf (msg : String)
  | remote (msg : String)
  deriving DecidableEq, Repr

/-- The `schema.ResourceData` of the resource: the identifier and the seven
schema fields of `resourceGitlabProjectVariable`. -/
structure ResourceData where
  Id : String
  project : String
  key : String
  value : String
  variable_type : String
  «protected» : Bool
  masked : Bool
  environment_scope : String
  deriving DecidableEq, Repr

/-- One call on `client.ProjectVariables`, with its arguments. -/
inductive Call where
  | CreateVariable (project : String) (options : CreateProjectVariableOptions)
  | ListVariables (project : String)
  | UpdateVariable (project key : String) (options : UpdateProjectVariableOptions)
  | RemoveVariable (project key : String)
  deriving DecidableEq, Repr

/-- The API client `client.ProjectVariables` over a remote of state `σ`: each
method maps the remote state to a new remote state and the method's result
(the `*gitlab.Response` is dropped, no caller reads it). -/
structure Client (σ : Type) where
  CreateVariable : σ → String → CreateProjectVariableOptions → σ × Except Error ProjectVariable
  ListVariables : σ → String → σ × Except Error (List ProjectVariable)
  UpdateVariable : σ → String → String → UpdateProjectVariableOptions → σ × Except Error ProjectVariable
  RemoveVariable : σ → String → String → σ × Option Error

/-- The world outside the handler: the remote state and the log of the remote
calls issued so far, oldest first. -/
structure World (σ : Type) where
  remote : σ
  calls : List Call

/-! ## Helpers of the package that live outside this file -/

/-- The separator of the composite identifier `project:key`. -/
def separator : Char := ':'

/-- Splits a character list at every occurrence of `sep`; a list with `n`
separators yields `n + 1` parts. -/
def splitParts (sep : Char) : List Char → List (List Char)
  | [] => [[]]
  | c :: cs =>
    if c = sep then [] :: splitParts sep cs
    else
      match splitParts sep cs with
      | [] => [[c]]
      | p :: ps => (c :: p) :: ps

/-- Modelled from the spec: `buildTwoPartID` is not part of this file. The spec
has Create derive the identifier "by joining project and key with a fixed
separator", giving the form `project:key`. -/
def buildTwoPartID (a b : String) : String :=
  String.mk (a.data ++ separator :: b.data)

/-- Modelled from the spec: `parseTwoPartID` is not part of this file. The spec
has it parse the identifier "back into (project, key)" and fail "if the
identifier is malformed (wrong separator count)", that is, when the number of
separator-delimited parts is not two. -/
def parseTwoPartID (id : String) : Except Error (String × String) :=
  match splitParts separator id.data with
  | [a, b] => .ok (String.mk a, String.mk b)
  | _ => .error (Error.idFormat id)

/-! ## The handler -/

section Handler

variable {σ : Type}

/-- Lines 108-114 of `resourceGitlabProjectVariableRead`: the `for ... range
vars` loop that leaves in `v` the entry at which it breaks, or nil. -/
def scanVariables (key scope : String) : List ProjectVariable → Option ProjectVariable
  | [] => none
  | vv :: rest =>
    if vv.Key = key ∧ vv.EnvironmentScope = scope then some vv
    else scanVariables key scope rest

/-- Appends a call to the log and installs the new remote state. -/
def World.record (w : World σ) (call : Call) (remote : σ) : World σ :=
  { remote := remote, calls := w.calls ++ [call] }

/-- Lines 120-126 of `resourceGitlabProjectVariableRead`: the seven `d.Set`
calls that write the selected record `v` and the parsed `project` to the
state. -/
def setFields (d : ResourceData) (project : String) (v : ProjectVariable) : ResourceData :=
  { d with
    key := v.Key
    value := v.Value
    variable_type := v.VariableType
    project := project
    «protected» := v.Protected
    masked := v.Masked
    environment_scope := v.EnvironmentScope }

/-- The error of line 117,
`fmt.Errorf("Variable %s/%s, scope:%s Not Found", project, key, scope)`. -/
def notFound (project key scope : String) : Error :=
  Error.errorf ("Variable " ++ project ++ "/" ++ key ++ ", scope:" ++ scope ++ " Not Found")

/-- Embedding of `resourceGitlabProjectVariableRead`: returns the world and the
resource state after the call and the returned `error` (`none` is nil). -/
def resourceGitlabProjectVariableRead (client : Client σ) (w : World σ) (d : ResourceData) :
    World σ × ResourceData × Option Error :=
  match parseTwoPartID d.Id with
  | .error err => (w, d, some err)
  | .ok (project, key) =>
    match client.ListVariables w.remote project with
    | (remote, .error err) => (w.record (Call.ListVariables project) remote, d, some err)
    | (remote, .ok vars) =>
      match scanVariables key d.environment_scope vars with
      | none =>
        (w.record (Call.ListVariables project) remote, d,
          some (notFound project key d.environment_scope))
      | some v => (w.record (Call.ListVariables project) remote, setFields d project v, none)

/-- Lines 66-81 of `resourceGitlabProjectVariableCreate`: the request built
from the state's fields. The helper `stringToVariableType` lives outside this
file and is taken as a parameter. -/
def createOptions (stringToVariableType : String → Option VariableTypeValue)
    (d : ResourceData) : CreateProjectVariableOptions :=
  { Key := d.key
    Value := d.value
    VariableType := stringToVariableType d.variable_type
    Protected := d.«protected»
    Masked := d.masked
    EnvironmentScope := d.environment_scope }

/-- Lines 135-147 of `resourceGitlabProjectVariableUpdate`: the request built
from the state's fields. -/
def updateOptions (stringToVariableType : String → Option VariableTypeValue)
    (d : ResourceData) : UpdateProjectVariableOptions :=
  { Value := d.value
    VariableType := stringToVariableType d.variable_type
    Protected := d.«protected»
    Masked := d.masked
    EnvironmentScope := d.environment_scope }

/-- Embedding of `resourceGitlabProjectVariableCreate`. -/
def resourceGitlabProjectVariableCreate
    (stringToVariableType : String → Option VariableTypeValue)
    (client : Client σ) (w : World σ) (d : ResourceData) :
    World σ × ResourceData × Option Error :=
  let project := d.project
  let key := d.key
  let options := createOptions stringToVariableType d
  match client.CreateVariable w.remote project options with
  | (remote, .error err) => (w.record (Call.CreateVariable project options) remote, d, some err)
  | (remote, .ok _) =>
    resourceGitlabProjectVariableRead client
      (w.record (Call.CreateVariable project options) remote)
      { d with Id := buildTwoPartID project key }

/-- Embedding of `resourceGitlabProjectVariableUpdate`. -/
def resourceGitlabProjectVariableUpdate
    (stringToVariableType : String → Option VariableTypeValue)
    (client : Client σ) (w : World σ) (d : ResourceData) :
    World σ × ResourceData × Option Error :=
  let project := d.project
  let key := d.key
  let options := updateOptions stringToVariableType d
  match client.UpdateVariable w.remote project key options with
  | (remote, .error err) => (w.record (Call.UpdateVariable project key options) remote, d, some err)
  | (remote, .ok _) =>
    resourceGitlabProjectVariableRead client
      (w.record (Call.UpdateVariable project key options) remote) d

/-- Embedding of `resourceGitlabProjectVariableDelete`. -/
def resourceGitlabProjectVariableDelete (client : Client σ) (w : World σ) (d : ResourceData) :
    World σ × ResourceData × Option Error :=
  let project := d.project
  let key := d.key
  match client.RemoveVariable w.remote project key with
  | (remote, err) => (w.record (Call.RemoveVariable project key) remote, d, err)

/-- Create followed immediately by Read, on the world and state Create left;
the result is that of the Read. -/
def createThenRead (stringToVariableType : String → Option VariableTypeValue)
    (client : Client σ) (w : World σ) (d : ResourceData) :
    World σ × ResourceData × Option Error :=
  resourceGitlabProjectVariableRead client
    (resourceGitlabProjectVariableCreate stringToVariableType client w d).1
    (resourceGitlabProjectVariableCreate stringToVariableType client w d).2.1

/-- Update followed by Read, on the world and state Update left. -/
def updateThenRead (stringToVariableType : String → Option VariableTypeValue)
    (client : Client σ) (w : World σ) (d : ResourceData) :
    World σ × ResourceData × Option Error :=
  resourceGitlabProjectVariableRead client
    (resourceGitlabProjectVariableUpdate stringToVariableType client w d).1
    (resourceGitlabProjectVariableUpdate stringToVariableType client w d).2.1

/-- Delete followed immediately by Read, on the world and state Delete left. -/
def deleteThenRead (client : Client σ) (w : World σ) (d : ResourceData) :
    World σ × ResourceData × Option Error :=
  resourceGitlabProjectVariableRead client
    (resourceGitlabProjectVariableDelete client w d).1
    (resourceGitlabProjectVariableDelete client w d).2.1

end Handler

/-! ## A reference remote for concrete runs -/

/-- The state of the reference remote: every stored variable with the project
that holds it, in listing order. -/
abbrev Store := List (String × ProjectVariable)

/-- The record the reference remote stores for a creation request (a request
without a type is stored with the schema's default kind, `env_var`). -/
def Store.created (o : CreateProjectVariableOptions) : ProjectVariable :=
  { Key := o.Key
    Value := o.Value
    VariableType := o.VariableType.getD "env_var"
    Protected := o.Protected
    Masked := o.Masked
    EnvironmentScope := o.EnvironmentScope }

/-- The record the reference remote stores after an update request. -/
def Store.updated (v : ProjectVariable) (o : UpdateProjectVariableOptions) : ProjectVariable :=
  { Key := v.Key
    Value := o.Value
    VariableType := o.VariableType.getD v.VariableType
    Protected := o.Protected
    Masked := o.Masked
    EnvironmentScope := o.EnvironmentScope }

/-- Replaces the first variable of `project` named `key`; `none` when the
project has no such variable. -/
def Store.update (project key : String) (o : UpdateProjectVariableOptions) :
    Store → Option (Store × ProjectVariable)
  | [] => none
  | (p, v) :: rest =>
    if p = project ∧ v.Key = key then some ((p, Store.updated v o) :: rest, Store.updated v o)
    else
      match Store.update project key o rest with
      | none => none
      | some (rest', v') => some ((p, v) :: rest', v')

/-- Removes the first variable of `project` named `key`; `none` when the
project has no such variable. -/
def Store.remove (project key : String) : Store → Option Store
  | [] => none
  | (p, v) :: rest =>
    if p = project ∧ v.Key = key then some rest
    else
      match Store.remove project key rest with
      | none => none
      | some rest' => some ((p, v) :: rest')

/-- A reference remote, standing for the external variable-management API in
concrete runs: a list-backed store. Create appends the variable it is sent,
list returns the project's variables in order, update and remove are addressed
by project and key alone (the client passes no scope) and act on the first
such variable, failing when there is none. -/
def storeClient : Client Store where
  CreateVariable s project o := (s ++ [(project, Store.created o)], .ok (Store.created o))
  ListVariables s project := (s, .ok ((s.filter (fun e => e.1 = project)).map (fun e => e.2)))
  UpdateVariable s project key o :=
    match Store.update project key o s with
    | none => (s, .error (Error.remote "404 Variable Not Found"))
    | some (s', v) => (s', .ok v)
  RemoveVariable s project key :=
    match Store.remove project key s with
    | none => (s, some (Error.remote "404 Variable Not Found"))
    | some s' => (s', none)

/-- A remote that is out of reach: every call fails with `e` and changes
nothing. -/
def failingClient (e : Error) : Client Unit where
  CreateVariable s _ _ := (s, .error e)
  ListVariables s _ := (s, .error e)
  UpdateVariable s _ _ _ := (s, .error e)
  RemoveVariable s _ _ := (s, some e)

/-- A sample `stringToVariableType` for concrete runs: it knows the schema's
default kind `env_var` and the kind `file`, and yields nil otherwise. -/
def knownVariableType (s : String) : Option VariableTypeValue :=
  if s = "env_var" ∨ s = "file" then some s else none

/-! ## Specification vocabulary -/

/-- The entry `v` is the first entry of `vars`, in list order, whose `Key` is
`key` and whose `EnvironmentScope` is `scope`: it sits behind a prefix that
holds no such entry. -/
def IsFirstMatch (key scope : String) (vars : List ProjectVariable) (v : ProjectVariable) : Prop :=
  ∃ pre post, vars = pre ++ v :: post ∧ v.Key = key ∧ v.EnvironmentScope = scope ∧
    ∀ x ∈ pre, ¬ (x.Key = key ∧ x.EnvironmentScope = scope)

/-- The listed record `v` holds what the creation request `o` carried. -/
def HoldsRequest (o : CreateProjectVariableOptions) (v : ProjectVariable) : Prop :=
  v.Key = o.Key ∧ v.Value = o.Value ∧ some v.VariableType = o.VariableType ∧
    v.Protected = o.Protected ∧ v.Masked = o.Masked ∧ v.EnvironmentScope = o.EnvironmentScope

/-- The remote honours a successful remove: whenever `RemoveVariable` returns
nil, the listing of the project afterwards is the listing before less one
variable of the removed key. -/
def HonoursRemove {σ : Type} (client : Client σ) : Prop :=
  ∀ (s s' : σ) (project key : String) (vars vars' : List ProjectVariable),
    client.RemoveVariable s project key = (s', none) →
    (client.ListVariables s project).2 = .ok vars →
    (client.ListVariables s' project).2 = .ok vars' →
    ∃ pre x post, vars = pre ++ x :: post ∧ x.Key = key ∧ vars' = pre ++ post

/-! ## Concrete data -/

/-- A remote record of `TOKEN` scoped to production. -/
def tokenProduction : ProjectVariable :=
  { Key := "TOKEN", Value := "s3cr3t", VariableType := "env_var", Protected := true,
    Masked := true, EnvironmentScope := "production" }

/-- A remote record of `TOKEN` scoped to staging. -/
def tokenStaging : ProjectVariable :=
  { Key := "TOKEN", Value := "stage", VariableType := "env_var", Protected := false,
    Masked := false, EnvironmentScope := "staging" }

/-- A remote holding `TOKEN` of project `grp/app` under two scopes. -/
def twoScopes : Store := [("grp/app", tokenStaging), ("grp/app", tokenProduction)]

/-- The state of the managed production `TOKEN`, holding stale cached fields. -/
def managedState : ResourceData :=
  { Id := "grp/app:TOKEN", project := "grp/app", key := "TOKEN", value := "cached",
    variable_type := "file", «protected» := false, masked := false,
    environment_scope := "production" }

/-- A state whose identifier has no separator, its fields naming the
production `TOKEN`. -/
def malformedState : ResourceData :=
  { Id := "grp/app-TOKEN", project := "grp/app", key := "TOKEN", value := "s3cr3t",
    variable_type := "env_var", «protected» := true, masked := true,
    environment_scope := "production" }

/-- The state of the production `TOKEN` as a successful Read leaves it. -/
def managedProduction : ResourceData :=
  { Id := "grp/app:TOKEN", project := "grp/app", key := "TOKEN", value := "s3cr3t",
    variable_type := "env_var", «protected» := true, masked := true,
    environment_scope := "production" }

/-- The desired state handed to Create: a production `TOKEN` of value `new`,
not yet identified. -/
def desiredState : ResourceData :=
  { Id := "", project := "grp/app", key := "TOKEN", value := "new",
    variable_type := "env_var", «protected» := false, masked := true,
    environment_scope := "production" }

/-- An older production `TOKEN` already held by the remote. -/
def olderToken : ProjectVariable :=
  { Key := "TOKEN", Value := "old", VariableType := "file", Protected := true,
    Masked := false, EnvironmentScope := "production" }

/-- A remote record of another variable, `REGION`, scoped to production. -/
def regionProduction : ProjectVariable :=
  { Key := "REGION", Value := "eu-1", VariableType := "env_var", Protected := false,
    Masked := false, EnvironmentScope := "production" }

/-- A remote holding `REGION` and the production `TOKEN` of project `grp/app`
and a `TOKEN` of another project. -/
def singleToken : Store :=
  [("grp/app", regionProduction), ("grp/app", tokenProduction), ("other/app", tokenStaging)]

/-! ## The scan -/

section Proofs

variable {σ : Type}

theorem scanVariables_isFirstMatch (key scope : String) (vars : List ProjectVariable)
    (v : ProjectVariable) (h : scanVariables key scope vars = some v) :
    IsFirstMatch key scope vars v := by
  induction vars with
  | nil => simp [scanVariables] at h
  | cons vv rest ih =>
    unfold scanVariables at h
    split at h
    · rename_i hm
      cases h
      exact ⟨[], rest, rfl, hm.1, hm.2, by simp⟩
    · rename_i hm
      obtain ⟨pre, post, hvars, hk, hs, hpre⟩ := ih h
      refine ⟨vv :: pre, post, by simp [hvars], hk, hs, ?_⟩
      intro x hx
      rcases List.mem_cons.mp hx with rfl | hx
      · exact hm
      · exact hpre x hx

theorem scanVariables_of_isFirstMatch (key scope : String) (vars : List ProjectVariable)
    (v : ProjectVariable) (h : IsFirstMatch key scope vars v) :
    scanVariables key scope vars = some v := by
  obtain ⟨pre, post, hvars, hk, hs, hpre⟩ := h
  subst hvars
  induction pre with
  | nil => simp [scanVariables, hk, hs]
  | cons x pre ih =>
    have hx : ¬ (x.Key = key ∧ x.EnvironmentScope = scope) := hpre x (by simp)
    have hrest : ∀ y ∈ pre, ¬ (y.Key = key ∧ y.EnvironmentScope = scope) :=
      fun y hy => hpre y (by simp [hy])
    simp only [List.cons_append, scanVariables, if_neg hx]
    exact ih hrest

theorem scanVariables_eq_none_iff (key scope : String) (vars : List ProjectVariable) :
    scanVariables key scope vars = none ↔
      ∀ x ∈ vars, ¬ (x.Key = key ∧ x.EnvironmentScope = scope) := by
  induction vars with
  | nil => simp [scanVariables]
  | cons vv rest ih =>
    unfold scanVariables
    by_cases hm : vv.Key = key ∧ vv.EnvironmentScope = scope
    · simp only [if_pos hm, List.mem_cons]
      constructor
      · intro h; cases h
      · intro h; exact absurd hm (h vv (Or.inl rfl))
    · simp only [if_neg hm, List.mem_cons, ih]
      constructor
      · intro h x hx
        rcases hx with rfl | hx
        · exact hm
        · exact h x hx
      · intro h x hx
        exact h x (Or.inr hx)

/-! ## The composite identifier -/

theorem splitParts_length (sep : Char) (l : List Char) :
    (splitParts sep l).length = l.count sep + 1 := by
  induction l with
  | nil => simp [splitParts]
  | cons c cs ih =>
    unfold splitParts
    by_cases hc : c = sep
    · subst hc
      simp [ih]
    · have hne : (c == sep) = false := by simpa using hc
      rw [if_neg hc, List.count_cons, hne]
      cases hsp : splitParts sep cs with
      | nil => rw [hsp] at ih; simp at ih
      | cons p ps => rw [hsp] at ih; simpa using ih

theorem splitParts_of_not_mem (sep : Char) (l : List Char) (h : sep ∉ l) :
    splitParts sep l = [l] := by
  induction l with
  | nil => rfl
  | cons c cs ih =>
    have hc : ¬ c = sep := fun hcs => h (by simp [hcs])
    have hcs : sep ∉ cs := fun hm => h (by simp [hm])
    simp [splitParts, hc, ih hcs]

theorem splitParts_append_sep (sep : Char) (a b : List Char) (h : sep ∉ a) :
    splitParts sep (a ++ sep :: b) = a :: splitParts sep b := by
  induction a with
  | nil => simp [splitParts]
  | cons c cs ih =>
    have hc : ¬ c = sep := fun hcs => h (by simp [hcs])
    have hcs : sep ∉ cs := fun hm => h (by simp [hm])
    simp [splitParts, hc, ih hcs]

theorem parseTwoPartID_buildTwoPartID (project key : String)
    (hproject : separator ∉ project.data) (hkey : separator ∉ key.data) :
    parseTwoPartID (buildTwoPartID project key) = .ok (project, key) := by
  simp [parseTwoPartID, buildTwoPartID, splitParts_append_sep separator _ _ hproject,
    splitParts_of_not_mem separator _ hkey]

theorem parseTwoPartID_malformed (id : String) (h : id.data.count separator ≠ 1) :
    parseTwoPartID id = .error (Error.idFormat id) := by
  have hlen := splitParts_length separator id.data
  unfold parseTwoPartID
  split
  · rename_i a b hsp
    rw [hsp] at hlen
    simp at hlen
    omega
  · rfl

/-! ## Unfolding Read along its four exits -/

theorem read_parse_error (client : Client σ) (w : World σ) (d : ResourceData) (e : Error)
    (hid : parseTwoPartID d.Id = .error e) :
    resourceGitlabProjectVariableRead client w d = (w, d, some e) := by
  simp [resourceGitlabProjectVariableRead, hid]

theorem read_list_error (client : Client σ) (w : World σ) (d : ResourceData)
    (project key : String) (remote : σ) (e : Error)
    (hid : parseTwoPartID d.Id = .ok (project, key))
    (hlist : client.ListVariables w.remote project = (remote, .error e)) :
    resourceGitlabProjectVariableRead client w d =
      (w.record (Call.ListVariables project) remote, d, some e) := by
  simp [resourceGitlabProjectVariableRead, hid, hlist]

theorem read_scan_none (client : Client σ) (w : World σ) (d : ResourceData)
    (project key : String) (remote : σ) (vars : List ProjectVariable)
    (hid : parseTwoPartID d.Id = .ok (project, key))
    (hlist : client.ListVariables w.remote project = (remote, .ok vars))
    (hscan : scanVariables key d.environment_scope vars = none) :
    resourceGitlabProjectVariableRead client w d =
      (w.record (Call.ListVariables project) remote, d,
        some (notFound project key d.environment_scope)) := by
  simp [resourceGitlabProjectVariableRead, hid, hlist, hscan]

theorem read_scan_some (client : Client σ) (w : World σ) (d : ResourceData)
    (project key : String) (remote : σ) (vars : List ProjectVariable) (v : ProjectVariable)
    (hid : parseTwoPartID d.Id = .ok (project, key))
    (hlist : client.ListVariables w.remote project = (remote, .ok vars))
    (hscan : scanVariables key d.environment_scope vars = some v) :
    resourceGitlabProjectVariableRead client w d =
      (w.record (Call.ListVariables project) remote, setFields d project v, none) := by
  simp [resourceGitlabProjectVariableRead, hid, hlist, hscan]

/-- Inversion of a successful Read: the identifier parsed, the list call
returned a listing, and the scan selected a record that was written back. -/
theorem read_success_inv (client : Client σ) (w w' : World σ) (d d' : ResourceData)
    (h : resourceGitlabProjectVariableRead client w d = (w', d', none)) :
    ∃ project key remote vars v,
      parseTwoPartID d.Id = .ok (project, key) ∧
      client.ListVariables w.remote project = (remote, .ok vars) ∧
      scanVariables key d.environment_scope vars = some v ∧
      w' = w.record (Call.ListVariables project) remote ∧
      d' = setFields d project v := by
  cases hid : parseTwoPartID d.Id with
  | error e => rw [read_parse_error client w d e hid] at h; simp at h
  | ok pk =>
    obtain ⟨project, key⟩ := pk
    cases hlist : client.ListVariables w.remote project with
    | mk remote res =>
      cases res with
      | error e => rw [read_list_error client w d project key remote e hid hlist] at h; simp at h
      | ok vars =>
        cases hscan : scanVariables key d.environment_scope vars with
        | none => rw [read_scan_none client w d project key remote vars hid hlist hscan] at h; simp at h
        | some v =>
          rw [read_scan_some client w d project key remote vars v hid hlist hscan] at h
          simp only [Prod.mk.injEq] at h
          exact ⟨project, key, remote, vars, v, rfl, hlist, hscan, h.1.symm, h.2.1.symm⟩

/-- Whatever Read returns, the identifier is kept, and when the state's
`project` and `key` agree with the identifier they are kept too. -/
theorem read_keeps_identity (client : Client σ) (w : World σ) (d : ResourceData)
    (project key : String) (hid : parseTwoPartID d.Id = .ok (project, key))
    (hproject : d.project = project) (hkey : d.key = key) :
    (resourceGitlabProjectVariableRead client w d).2.1.Id = d.Id ∧
    (resourceGitlabProjectVariableRead client w d).2.1.project = project ∧
    (resourceGitlabProjectVariableRead client w d).2.1.key = key := by
  cases hlist : client.ListVariables w.remote project with
  | mk remote res =>
    cases res with
    | error e =>
      rw [read_list_error client w d project key remote e hid hlist]
      exact ⟨rfl, hproject, hkey⟩
    | ok vars =>
      cases hscan : scanVariables key d.environment_scope vars with
      | none =>
        rw [read_scan_none client w d project key remote vars hid hlist hscan]
        exact ⟨rfl, hproject, hkey⟩
      | some v =>
        rw [read_scan_some client w d project key remote vars v hid hlist hscan]
        obtain ⟨-, -, -, hk, -, -⟩ := scanVariables_isFirstMatch key d.environment_scope vars v hscan
        exact ⟨rfl, rfl, hk⟩

/-- With a parsed identifier, Read issues exactly one call, the listing of the
parsed project. -/
theorem read_calls (client : Client σ) (w : World σ) (d : ResourceData)
    (project key : String) (hid : parseTwoPartID d.Id = .ok (project, key)) :
    (resourceGitlabProjectVariableRead client w d).1.calls =
      w.calls ++ [Call.ListVariables project] := by
  cases hlist : client.ListVariables w.remote project with
  | mk remote res =>
    cases res with
    | error e => rw [read_list_error client w d project key remote e hid hlist]; rfl
    | ok vars =>
      cases hscan : scanVariables key d.environment_scope vars with
      | none => rw [read_scan_none client w d project key remote vars hid hlist hscan]; rfl
      | some v => rw [read_scan_some client w d project key remote vars v hid hlist hscan]; rfl

/-! ## The reference remote honours a successful remove -/

theorem store_remove_listing (project key : String) (s s' : Store)
    (h : Store.remove project key s = some s') :
    ∃ pre x post,
      (s.filter (fun e => e.1 = project)).map (fun e => e.2) = pre ++ x :: post ∧
      x.Key = key ∧
      (s'.filter (fun e => e.1 = project)).map (fun e => e.2) = pre ++ post := by
  induction s generalizing s' with
  | nil => simp [Store.remove] at h
  | cons e rest ih =>
    obtain ⟨p, v⟩ := e
    unfold Store.remove at h
    by_cases hm : p = project ∧ v.Key = key
    · rw [if_pos hm] at h
      simp only [Option.some.injEq] at h
      subst h
      exact ⟨[], v, (rest.filter (fun e => e.1 = project)).map (fun e => e.2),
        by simp [hm.1], hm.2, by simp⟩
    · rw [if_neg hm] at h
      cases hr : Store.remove project key rest with
      | none => rw [hr] at h; simp at h
      | some rest' =>
        rw [hr] at h
        simp only [Option.some.injEq] at h
        subst h
        obtain ⟨pre, x, post, h1, h2, h3⟩ := ih rest' hr
        by_cases hp : p = project
        · refine ⟨v :: pre, x, post, ?_, h2, ?_⟩
          · simp [hp, ← h1]
          · simp [hp, ← h3]
        · refine ⟨pre, x, post, ?_, h2, ?_⟩
          · simp [hp, ← h1]
          · simp [hp, ← h3]

theorem storeClient_honoursRemove : HonoursRemove storeClient := by
  intro s s' project key vars vars' hrm hbefore hafter
  have hremove : Store.remove project key s = some s' := by
    cases hr : Store.remove project key s with
    | none => simp [storeClient, hr] at hrm
    | some s'' =>
      simp only [storeClient, hr, Prod.mk.injEq, and_true] at hrm
      rw [hrm]
  obtain ⟨pre, x, post, h1, h2, h3⟩ := store_remove_listing project key s s' hremove
  simp only [storeClient, Except.ok.injEq] at hbefore hafter
  exact ⟨pre, x, post, by rw [← hbefore]; exact h1, h2, by rw [← hafter]; exact h3⟩

end Proofs

/-! ## Claims about Read -/

section ReadClaims

variable {σ : Type}

/-- C1. Scope-sensitive lookup: when the identifier parses to `(project, key)`
and the list call returns `vars`, the record Read selects and writes back is
the first entry of `vars` whose `Key` is `key` and whose `EnvironmentScope` is
the stored scope; a successful Read selected such an entry, and when every
entry named `key` has another scope Read selects none and reports not-found. -/
theorem read_selects_first_key_scope_match (client : Client σ) (w : World σ)
    (d : ResourceData) (project key : String) (remote : σ) (vars : List ProjectVariable)
    (hid : parseTwoPartID d.Id = .ok (project, key))
    (hlist : client.ListVariables w.remote project = (remote, .ok vars)) :
    (∀ v, IsFirstMatch key d.environment_scope vars v →
      resourceGitlabProjectVariableRead client w d =
        (w.record (Call.ListVariables project) remote, setFields d project v, none)) ∧
    (∀ w' d', resourceGitlabProjectVariableRead client w d = (w', d', none) →
      ∃ v, IsFirstMatch key d.environment_scope vars v ∧ d' = setFields d project v) ∧
    ((∀ x ∈ vars, x.Key = key → x.EnvironmentScope ≠ d.environment_scope) →
      resourceGitlabProjectVariableRead client w d =
        (w.record (Call.ListVariables project) remote, d,
          some (notFound project key d.environment_scope))) := by
  refine ⟨?_, ?_, ?_⟩
  · intro v hv
    exact read_scan_some client w d project key remote vars v hid hlist
      (scanVariables_of_isFirstMatch key d.environment_scope vars v hv)
  · intro w' d' h
    obtain ⟨project', key', remote', vars', v, hid', hlist', hscan, -, hd⟩ :=
      read_success_inv client w w' d d' h
    rw [hid] at hid'
    simp only [Except.ok.injEq, Prod.mk.injEq] at hid'
    obtain ⟨rfl, rfl⟩ := hid'
    rw [hlist] at hlist'
    simp only [Prod.mk.injEq, Except.ok.injEq] at hlist'
    obtain ⟨-, rfl⟩ := hlist'
    exact ⟨v, scanVariables_isFirstMatch key d.environment_scope vars v hscan, hd⟩
  · intro hscope
    apply read_scan_none client w d project key remote vars hid hlist
    rw [scanVariables_eq_none_iff]
    intro x hx hm
    exact hscope x hx hm.1 hm.2

/-- Witness of C1: with staging listed before production, the production state
selects the production record. -/
theorem read_selects_first_key_scope_match_witness :
    resourceGitlabProjectVariableRead storeClient ⟨twoScopes, []⟩ managedState =
      (⟨twoScopes, [Call.ListVariables "grp/app"]⟩,
        setFields managedState "grp/app" tokenProduction, none) :=
  (read_selects_first_key_scope_match storeClient ⟨twoScopes, []⟩ managedState
    "grp/app" "TOKEN" twoScopes [tokenStaging, tokenProduction] rfl rfl).1 tokenProduction
    ⟨[tokenStaging], [], rfl, rfl, rfl, by decide⟩

/-- C3. Not-found is a loud failure: when the identifier parses to
`(project, key)` and the listing holds no entry with that key and the stored
scope, Read returns the error "Variable project/key, scope:s Not Found" and
leaves the identifier and every field of the state as they were. -/
theorem read_not_found_is_loud (client : Client σ) (w : World σ) (d : ResourceData)
    (project key : String) (remote : σ) (vars : List ProjectVariable)
    (hid : parseTwoPartID d.Id = .ok (project, key))
    (hlist : client.ListVariables w.remote project = (remote, .ok vars))
    (hnone : ∀ x ∈ vars, ¬ (x.Key = key ∧ x.EnvironmentScope = d.environment_scope)) :
    resourceGitlabProjectVariableRead client w d =
      (w.record (Call.ListVariables project) remote, d,
        some (Error.errorf ("Variable " ++ project ++ "/" ++ key ++ ", scope:" ++
          d.environment_scope ++ " Not Found"))) :=
  read_scan_none client w d project key remote vars hid hlist
    ((scanVariables_eq_none_iff key d.environment_scope vars).mpr hnone)

/-- Witness of C3: a production state read against a remote that only holds
the staging record. -/
theorem read_not_found_is_loud_witness :
    resourceGitlabProjectVariableRead storeClient ⟨[("grp/app", tokenStaging)], []⟩ managedState =
      (⟨[("grp/app", tokenStaging)], [Call.ListVariables "grp/app"]⟩, managedState,
        some (Error.errorf "Variable grp/app/TOKEN, scope:production Not Found")) :=
  read_not_found_is_loud storeClient ⟨[("grp/app", tokenStaging)], []⟩ managedState
    "grp/app" "TOKEN" [("grp/app", tokenStaging)] [tokenStaging] rfl rfl (by decide)

/-- C4. Read is authoritative: whenever Read returns nil, the identifier
parsed to some `(project, key)`, the scan of the listing of `project` selected
a record `v`, and the seven fields hold `v.Key`, `v.Value`, `v.VariableType`,
`project`, `v.Protected`, `v.Masked` and `v.EnvironmentScope`, whatever they
held before. -/
theorem read_success_overwrites_all_fields (client : Client σ) (w w' : World σ)
    (d d' : ResourceData)
    (h : resourceGitlabProjectVariableRead client w d = (w', d', none)) :
    ∃ project key remote vars v,
      parseTwoPartID d.Id = .ok (project, key) ∧
      client.ListVariables w.remote project = (remote, .ok vars) ∧
      scanVariables key d.environment_scope vars = some v ∧
      d'.key = v.Key ∧ d'.value = v.Value ∧ d'.variable_type = v.VariableType ∧
      d'.project = project ∧ d'.«protected» = v.Protected ∧ d'.masked = v.Masked ∧
      d'.environment_scope = v.EnvironmentScope := by
  obtain ⟨project, key, remote, vars, v, hid, hlist, hscan, -, rfl⟩ :=
    read_success_inv client w w' d d' h
  exact ⟨project, key, remote, vars, v, hid, hlist, hscan, rfl, rfl, rfl, rfl, rfl, rfl, rfl⟩

/-- Witness of C4: the stale fields of the production state are all replaced
by the production record. -/
theorem read_success_overwrites_all_fields_witness :
    ∃ project key remote vars v,
      parseTwoPartID managedState.Id = .ok (project, key) ∧
      storeClient.ListVariables twoScopes project = (remote, .ok vars) ∧
      scanVariables key managedState.environment_scope vars = some v ∧
      "TOKEN" = v.Key ∧ "s3cr3t" = v.Value ∧ "env_var" = v.VariableType ∧
      "grp/app" = project ∧ true = v.Protected ∧ true = v.Masked ∧
      "production" = v.EnvironmentScope :=
  read_success_overwrites_all_fields storeClient ⟨twoScopes, []⟩
    ⟨twoScopes, [Call.ListVariables "grp/app"]⟩ managedState
    { Id := "grp/app:TOKEN", project := "grp/app", key := "TOKEN", value := "s3cr3t",
      variable_type := "env_var", «protected» := true, masked := true,
      environment_scope := "production" } rfl

/-- C10. Read is idempotent against an unchanged remote: when Read succeeds
and the list call then returns the same result as before, a second Read
succeeds and leaves the state produced by the first. -/
theorem read_idempotent (client : Client σ) (w w1 : World σ) (d d1 : ResourceData)
    (h : resourceGitlabProjectVariableRead client w d = (w1, d1, none))
    (hsame : ∀ project key, parseTwoPartID d.Id = .ok (project, key) →
      (client.ListVariables w1.remote project).2 = (client.ListVariables w.remote project).2) :
    (resourceGitlabProjectVariableRead client w1 d1).2 = (d1, none) := by
  obtain ⟨project, key, remote, vars, v, hid, hlist, hscan, -, rfl⟩ :=
    read_success_inv client w w1 d d1 h
  have hv := scanVariables_isFirstMatch key d.environment_scope vars v hscan
  obtain ⟨-, -, -, hk, hs, -⟩ := hv
  have hlist1 : client.ListVariables w1.remote project =
      ((client.ListVariables w1.remote project).1, .ok vars) := by
    have := hsame project key hid
    rw [hlist] at this
    exact Prod.ext rfl this
  have hid1 : parseTwoPartID (setFields d project v).Id = .ok (project, key) := hid
  have hscan1 : scanVariables key (setFields d project v).environment_scope vars = some v := by
    show scanVariables key v.EnvironmentScope vars = some v
    rw [hs]; exact hscan
  rw [read_scan_some client w1 (setFields d project v) project key _ vars v hid1 hlist1 hscan1]
  simp [setFields]

/-- Witness of C10: reading the production state twice against the same
remote. -/
theorem read_idempotent_witness :
    (resourceGitlabProjectVariableRead storeClient
      ⟨twoScopes, [Call.ListVariables "grp/app"]⟩
      (setFields managedState "grp/app" tokenProduction)).2 =
      (setFields managedState "grp/app" tokenProduction, none) :=
  read_idempotent storeClient ⟨twoScopes, []⟩ ⟨twoScopes, [Call.ListVariables "grp/app"]⟩
    managedState (setFields managedState "grp/app" tokenProduction) rfl (fun _ _ _ => rfl)

end ReadClaims

/-! ## Claims about the identifier and the remote calls -/

section LifecycleClaims

variable {σ : Type}

/-- Counterexample to C2: Delete never parses the identifier. On a state whose
identifier has no separator it issues the remove call and returns nil. -/
theorem delete_ignores_malformed_id :
    parseTwoPartID malformedState.Id = .error (Error.idFormat "grp/app-TOKEN") ∧
    resourceGitlabProjectVariableDelete storeClient ⟨[("grp/app", tokenProduction)], []⟩
        malformedState =
      (⟨[], [Call.RemoveVariable "grp/app" "TOKEN"]⟩, malformedState, none) :=
  ⟨rfl, rfl⟩

/-- C2, amended. For a state whose identifier does not hold exactly one
separator, Read fails with the identifier-format error, issues no remote call
and leaves the state; Delete does not consult the identifier: it issues one
remove call addressed by the state's `project` and `key` fields and returns
that call's error. -/
theorem malformed_id_read_rejects_delete_unparsed (client : Client σ) (w : World σ)
    (d : ResourceData) (hbad : d.Id.data.count separator ≠ 1) :
    resourceGitlabProjectVariableRead client w d = (w, d, some (Error.idFormat d.Id)) ∧
    (resourceGitlabProjectVariableRead client w d).1.calls = w.calls ∧
    resourceGitlabProjectVariableDelete client w d =
      (⟨(client.RemoveVariable w.remote d.project d.key).1,
          w.calls ++ [Call.RemoveVariable d.project d.key]⟩, d,
        (client.RemoveVariable w.remote d.project d.key).2) := by
  have hread := read_parse_error client w d _ (parseTwoPartID_malformed d.Id hbad)
  refine ⟨hread, by rw [hread], ?_⟩
  simp [resourceGitlabProjectVariableDelete, World.record]

/-- Witness of C2, amended: an identifier of three parts. -/
theorem malformed_id_read_rejects_delete_unparsed_witness :
    resourceGitlabProjectVariableRead storeClient ⟨twoScopes, []⟩
        { managedProduction with Id := "grp:app:TOKEN" } =
      (⟨twoScopes, []⟩, { managedProduction with Id := "grp:app:TOKEN" },
        some (Error.idFormat "grp:app:TOKEN")) :=
  (malformed_id_read_rejects_delete_unparsed storeClient ⟨twoScopes, []⟩
    { managedProduction with Id := "grp:app:TOKEN" } (by decide)).1

/-- C6. Composite-identifier round trip: for `project` and `key` free of the
separator, when the create call succeeds Create stores
`buildTwoPartID project key`, and Read parses that identifier back into
exactly `(project, key)`: the Read inside Create and any Read of a state
carrying the stored identifier issue the list call for `project`, never fail
in the parse, scan the listing for `key`, name `project` and `key` in the
not-found error and write `project` back on a match. -/
theorem create_id_round_trip (stringToVariableType : String → Option VariableTypeValue)
    (client : Client σ) (w : World σ) (d : ResourceData) (remote : σ)
    (created : ProjectVariable)
    (hproject : separator ∉ d.project.data) (hkey : separator ∉ d.key.data)
    (hcreate : client.CreateVariable w.remote d.project (createOptions stringToVariableType d) =
      (remote, .ok created)) :
    (resourceGitlabProjectVariableCreate stringToVariableType client w d).2.1.Id =
      buildTwoPartID d.project d.key ∧
    parseTwoPartID (resourceGitlabProjectVariableCreate stringToVariableType client w d).2.1.Id =
      .ok (d.project, d.key) ∧
    (resourceGitlabProjectVariableCreate stringToVariableType client w d).1.calls =
      w.calls ++ [Call.CreateVariable d.project (createOptions stringToVariableType d),
        Call.ListVariables d.project] ∧
    ∀ (w' : World σ) (d' : ResourceData),
      d'.Id = (resourceGitlabProjectVariableCreate stringToVariableType client w d).2.1.Id →
      (resourceGitlabProjectVariableRead client w' d').1.calls =
        w'.calls ++ [Call.ListVariables d.project] ∧
      (∀ remote' e, client.ListVariables w'.remote d.project = (remote', .error e) →
        resourceGitlabProjectVariableRead client w' d' =
          (⟨remote', w'.calls ++ [Call.ListVariables d.project]⟩, d', some e)) ∧
      (∀ remote' vars, client.ListVariables w'.remote d.project = (remote', .ok vars) →
        scanVariables d.key d'.environment_scope vars = none →
        resourceGitlabProjectVariableRead client w' d' =
          (⟨remote', w'.calls ++ [Call.ListVariables d.project]⟩, d',
            some (Error.errorf ("Variable " ++ d.project ++ "/" ++ d.key ++ ", scope:" ++
              d'.environment_scope ++ " Not Found")))) ∧
      (∀ remote' vars v, client.ListVariables w'.remote d.project = (remote', .ok vars) →
        scanVariables d.key d'.environment_scope vars = some v →
        resourceGitlabProjectVariableRead client w' d' =
          (⟨remote', w'.calls ++ [Call.ListVariables d.project]⟩,
            setFields d' d.project v, none)) := by
  have hparse := parseTwoPartID_buildTwoPartID d.project d.key hproject hkey
  have hc : resourceGitlabProjectVariableCreate stringToVariableType client w d =
      resourceGitlabProjectVariableRead client
        (w.record (Call.CreateVariable d.project (createOptions stringToVariableType d)) remote)
        { d with Id := buildTwoPartID d.project d.key } := by
    unfold resourceGitlabProjectVariableCreate
    simp only [hcreate]
  have hId : (resourceGitlabProjectVariableCreate stringToVariableType client w d).2.1.Id =
      buildTwoPartID d.project d.key := by
    rw [hc]
    exact (read_keeps_identity client _ { d with Id := buildTwoPartID d.project d.key }
      d.project d.key hparse rfl rfl).1
  refine ⟨hId, by rw [hId]; exact hparse, ?_, ?_⟩
  · rw [hc, read_calls client _ { d with Id := buildTwoPartID d.project d.key }
      d.project d.key hparse]
    simp [World.record]
  · intro w' d' hd'
    have hid' : parseTwoPartID d'.Id = .ok (d.project, d.key) := by
      rw [hd', hId]; exact hparse
    refine ⟨read_calls client w' d' d.project d.key hid', ?_, ?_, ?_⟩
    · intro remote' e hlist
      exact read_list_error client w' d' d.project d.key remote' e hid' hlist
    · intro remote' vars hlist hscan
      exact read_scan_none client w' d' d.project d.key remote' vars hid' hlist hscan
    · intro remote' vars v hlist hscan
      exact read_scan_some client w' d' d.project d.key remote' vars v hid' hlist hscan

/-- Witness of C6: Create on an empty remote stores `grp/app:TOKEN` and lists
`grp/app`; a Read of a state that carries only that identifier, on a remote
holding `TOKEN` of `grp/app` under two scopes, lists `grp/app` and writes back
project `grp/app` and key `TOKEN`. -/
theorem create_id_round_trip_witness :
    (resourceGitlabProjectVariableCreate knownVariableType storeClient ⟨[], []⟩
        desiredState).2.1.Id = "grp/app:TOKEN" ∧
    (resourceGitlabProjectVariableCreate knownVariableType storeClient ⟨[], []⟩
        desiredState).1.calls =
      [Call.CreateVariable "grp/app" (createOptions knownVariableType desiredState),
        Call.ListVariables "grp/app"] ∧
    resourceGitlabProjectVariableRead storeClient ⟨twoScopes, []⟩
        { Id := "grp/app:TOKEN", project := "", key := "", value := "", variable_type := "",
          «protected» := false, masked := false, environment_scope := "production" } =
      (⟨twoScopes, [Call.ListVariables "grp/app"]⟩, managedProduction, none) :=
  ⟨(create_id_round_trip knownVariableType storeClient ⟨[], []⟩ desiredState
      [("grp/app", Store.created (createOptions knownVariableType desiredState))]
      (Store.created (createOptions knownVariableType desiredState))
      (by decide) (by decide) rfl).1,
    (create_id_round_trip knownVariableType storeClient ⟨[], []⟩ desiredState
      [("grp/app", Store.created (createOptions knownVariableType desiredState))]
      (Store.created (createOptions knownVariableType desiredState))
      (by decide) (by decide) rfl).2.2.1,
    ((create_id_round_trip knownVariableType storeClient ⟨[], []⟩ desiredState
      [("grp/app", Store.created (createOptions knownVariableType desiredState))]
      (Store.created (createOptions knownVariableType desiredState))
      (by decide) (by decide) rfl).2.2.2 ⟨twoScopes, []⟩
      { Id := "grp/app:TOKEN", project := "", key := "", value := "", variable_type := "",
        «protected» := false, masked := false, environment_scope := "production" }
      rfl).2.2.2 twoScopes [tokenStaging, tokenProduction] tokenProduction rfl rfl⟩

/-- Counterexample to C5: the remote already lists a production `TOKEN`. The
create call succeeds and the remote then lists the variable it was sent, yet
Create and the following Read both return nil with the state holding the
older record, whose value, type, protected and masked differ from the
request. -/
theorem create_read_selects_older_duplicate :
    (resourceGitlabProjectVariableCreate knownVariableType storeClient
        ⟨[("grp/app", olderToken)], []⟩ desiredState).2.2 = none ∧
    (storeClient.ListVariables (resourceGitlabProjectVariableCreate knownVariableType storeClient
        ⟨[("grp/app", olderToken)], []⟩ desiredState).1.remote "grp/app").2 =
      .ok [olderToken,
        { Key := "TOKEN", Value := "new", VariableType := "env_var", Protected := false,
          Masked := true, EnvironmentScope := "production" }] ∧
    (createOptions knownVariableType desiredState).Value = "new" ∧
    createThenRead knownVariableType storeClient ⟨[("grp/app", olderToken)], []⟩ desiredState =
      (⟨[("grp/app", olderToken),
          ("grp/app", Store.created (createOptions knownVariableType desiredState))],
          [Call.CreateVariable "grp/app" (createOptions knownVariableType desiredState),
            Call.ListVariables "grp/app", Call.ListVariables "grp/app"]⟩,
        { Id := "grp/app:TOKEN", project := "grp/app", key := "TOKEN", value := "old",
          variable_type := "file", «protected» := true, masked := false,
          environment_scope := "production" },
        none) :=
  ⟨rfl, rfl, rfl, rfl⟩

/-- C5, amended. Create/Read round trip: for `project` and `key` free of the
separator, when the create call succeeds and each listing the two Reads
receive has, as its first entry with the request's key and scope, a record
holding what the request carried, Create and the Read that follows both return
nil and
the state's key, value, variable_type, protected, masked and environment_scope
are the values of the creation request. -/
theorem create_read_round_trip (stringToVariableType : String → Option VariableTypeValue)
    (client : Client σ) (w : World σ) (d : ResourceData) (remote1 remote2 remote3 : σ)
    (created sent : ProjectVariable) (vars1 vars2 : List ProjectVariable)
    (hproject : separator ∉ d.project.data) (hkey : separator ∉ d.key.data)
    (hcreate : client.CreateVariable w.remote d.project (createOptions stringToVariableType d) =
      (remote1, .ok created))
    (hlist1 : client.ListVariables remote1 d.project = (remote2, .ok vars1))
    (hlist2 : client.ListVariables remote2 d.project = (remote3, .ok vars2))
    (hsent : HoldsRequest (createOptions stringToVariableType d) sent)
    (hfirst1 : IsFirstMatch d.key d.environment_scope vars1 sent)
    (hfirst2 : IsFirstMatch d.key d.environment_scope vars2 sent) :
    (resourceGitlabProjectVariableCreate stringToVariableType client w d).2.2 = none ∧
    (createThenRead stringToVariableType client w d).2.2 = none ∧
    (createThenRead stringToVariableType client w d).2.1.key =
      (createOptions stringToVariableType d).Key ∧
    (createThenRead stringToVariableType client w d).2.1.value =
      (createOptions stringToVariableType d).Value ∧
    some (createThenRead stringToVariableType client w d).2.1.variable_type =
      (createOptions stringToVariableType d).VariableType ∧
    (createThenRead stringToVariableType client w d).2.1.«protected» =
      (createOptions stringToVariableType d).Protected ∧
    (createThenRead stringToVariableType client w d).2.1.masked =
      (createOptions stringToVariableType d).Masked ∧
    (createThenRead stringToVariableType client w d).2.1.environment_scope =
      (createOptions stringToVariableType d).EnvironmentScope := by
  have hparse := parseTwoPartID_buildTwoPartID d.project d.key hproject hkey
  have hscan := scanVariables_of_isFirstMatch d.key d.environment_scope vars1 sent hfirst1
  have hscan' := scanVariables_of_isFirstMatch d.key d.environment_scope vars2 sent hfirst2
  have hc : resourceGitlabProjectVariableCreate stringToVariableType client w d =
      ((w.record (Call.CreateVariable d.project (createOptions stringToVariableType d))
          remote1).record (Call.ListVariables d.project) remote2,
        setFields { d with Id := buildTwoPartID d.project d.key } d.project sent, none) := by
    unfold resourceGitlabProjectVariableCreate
    simp only [hcreate]
    exact read_scan_some client _ { d with Id := buildTwoPartID d.project d.key }
      d.project d.key remote2 vars1 sent hparse hlist1 hscan
  obtain ⟨h1, h2, h3, h4, h5, h6⟩ := hsent
  have hscan2 : scanVariables d.key
      (setFields { d with Id := buildTwoPartID d.project d.key } d.project
        sent).environment_scope vars2 = some sent := by
    show scanVariables d.key sent.EnvironmentScope vars2 = some sent
    rw [h6]; exact hscan'
  have hr : createThenRead stringToVariableType client w d =
      (((w.record (Call.CreateVariable d.project (createOptions stringToVariableType d))
          remote1).record (Call.ListVariables d.project) remote2).record
          (Call.ListVariables d.project) remote3,
        setFields (setFields { d with Id := buildTwoPartID d.project d.key } d.project sent)
          d.project sent, none) := by
    unfold createThenRead
    rw [hc]
    exact read_scan_some client _ _ d.project d.key remote3 vars2 sent hparse hlist2 hscan2
  rw [hc, hr]
  exact ⟨rfl, rfl, h1, h2, h3, h4, h5, h6⟩

/-- Witness of C5, amended: creating the production `TOKEN` on a remote that
only holds the staging one. -/
theorem create_read_round_trip_witness :
    (resourceGitlabProjectVariableCreate knownVariableType storeClient
        ⟨[("grp/app", tokenStaging)], []⟩ desiredState).2.2 = none ∧
    (createThenRead knownVariableType storeClient
        ⟨[("grp/app", tokenStaging)], []⟩ desiredState).2.2 = none ∧
    (createThenRead knownVariableType storeClient
        ⟨[("grp/app", tokenStaging)], []⟩ desiredState).2.1.key = "TOKEN" ∧
    (createThenRead knownVariableType storeClient
        ⟨[("grp/app", tokenStaging)], []⟩ desiredState).2.1.value = "new" ∧
    some (createThenRead knownVariableType storeClient
        ⟨[("grp/app", tokenStaging)], []⟩ desiredState).2.1.variable_type = some "env_var" ∧
    (createThenRead knownVariableType storeClient
        ⟨[("grp/app", tokenStaging)], []⟩ desiredState).2.1.«protected» = false ∧
    (createThenRead knownVariableType storeClient
        ⟨[("grp/app", tokenStaging)], []⟩ desiredState).2.1.masked = true ∧
    (createThenRead knownVariableType storeClient
        ⟨[("grp/app", tokenStaging)], []⟩ desiredState).2.1.environment_scope = "production" :=
  create_read_round_trip knownVariableType storeClient ⟨[("grp/app", tokenStaging)], []⟩
    desiredState
    [("grp/app", tokenStaging),
      ("grp/app", Store.created (createOptions knownVariableType desiredState))]
    [("grp/app", tokenStaging),
      ("grp/app", Store.created (createOptions knownVariableType desiredState))]
    [("grp/app", tokenStaging),
      ("grp/app", Store.created (createOptions knownVariableType desiredState))]
    (Store.created (createOptions knownVariableType desiredState))
    (Store.created (createOptions knownVariableType desiredState))
    [tokenStaging, Store.created (createOptions knownVariableType desiredState)]
    [tokenStaging, Store.created (createOptions knownVariableType desiredState)]
    (by decide) (by decide) rfl rfl rfl
    ⟨rfl, rfl, rfl, rfl, rfl, rfl⟩
    ⟨[tokenStaging], [], rfl, rfl, rfl, by decide⟩
    ⟨[tokenStaging], [], rfl, rfl, rfl, by decide⟩

/-- C7. Immutability of identity fields under Update: when the identifier
encodes `(project0, key0)` and Update returns nil, whatever `project` and
`key` the state held, the state Update leaves and the state a subsequent Read
leaves both have the unchanged identifier, `project = project0` and
`key = key0`. -/
theorem update_keeps_project_and_key (stringToVariableType : String → Option VariableTypeValue)
    (client : Client σ) (w w1 : World σ) (d d1 : ResourceData) (project0 key0 : String)
    (hid : parseTwoPartID d.Id = .ok (project0, key0))
    (hupdate : resourceGitlabProjectVariableUpdate stringToVariableType client w d =
      (w1, d1, none)) :
    (d1.Id = d.Id ∧ d1.project = project0 ∧ d1.key = key0) ∧
    (updateThenRead stringToVariableType client w d).2.1.Id = d.Id ∧
    (updateThenRead stringToVariableType client w d).2.1.project = project0 ∧
    (updateThenRead stringToVariableType client w d).2.1.key = key0 := by
  have hd1 : d1.Id = d.Id ∧ d1.project = project0 ∧ d1.key = key0 := by
    unfold resourceGitlabProjectVariableUpdate at hupdate
    cases hu : client.UpdateVariable w.remote d.project d.key
        (updateOptions stringToVariableType d) with
    | mk remote res =>
      cases res with
      | error e => simp [hu] at hupdate
      | ok v0 =>
        simp only [hu] at hupdate
        obtain ⟨project, key, remote', vars, v, hid', -, hscan, -, rfl⟩ :=
          read_success_inv client _ w1 d d1 hupdate
        rw [hid] at hid'
        simp only [Except.ok.injEq, Prod.mk.injEq] at hid'
        obtain ⟨rfl, rfl⟩ := hid'
        obtain ⟨-, -, -, hk, -, -⟩ :=
          scanVariables_isFirstMatch key0 d.environment_scope vars v hscan
        exact ⟨rfl, rfl, hk⟩
  refine ⟨hd1, ?_⟩
  unfold updateThenRead
  rw [hupdate]
  obtain ⟨hI, hp, hk⟩ := hd1
  have := read_keeps_identity client w1 d1 project0 key0 (by rw [hI]; exact hid) hp hk
  rw [hI] at this
  exact this

/-- Witness of C7: the state asks for project `other/app` and key `RENAMED`
while the identifier encodes `grp/app` and `TOKEN`; the remote holds both. -/
theorem update_keeps_project_and_key_witness :
    (updateThenRead knownVariableType storeClient
        ⟨[("other/app", { tokenProduction with Key := "RENAMED" }),
          ("grp/app", tokenProduction)], []⟩
        { managedProduction with project := "other/app", key := "RENAMED" }).2.1.Id =
      "grp/app:TOKEN" ∧
    (updateThenRead knownVariableType storeClient
        ⟨[("other/app", { tokenProduction with Key := "RENAMED" }),
          ("grp/app", tokenProduction)], []⟩
        { managedProduction with project := "other/app", key := "RENAMED" }).2.1.project =
      "grp/app" ∧
    (updateThenRead knownVariableType storeClient
        ⟨[("other/app", { tokenProduction with Key := "RENAMED" }),
          ("grp/app", tokenProduction)], []⟩
        { managedProduction with project := "other/app", key := "RENAMED" }).2.1.key =
      "TOKEN" :=
  (update_keeps_project_and_key knownVariableType storeClient
    ⟨[("other/app", { tokenProduction with Key := "RENAMED" }),
      ("grp/app", tokenProduction)], []⟩
    ⟨[("other/app", { tokenProduction with Key := "RENAMED" }),
      ("grp/app", tokenProduction)],
      [Call.UpdateVariable "other/app" "RENAMED"
        (updateOptions knownVariableType managedProduction),
        Call.ListVariables "grp/app"]⟩
    { managedProduction with project := "other/app", key := "RENAMED" }
    managedProduction "grp/app" "TOKEN" rfl rfl).2

/-- Counterexample to C8: the remote holds `TOKEN` under staging and under
production, and the state manages the production one. Delete, addressed by
project and key alone, returns nil after the remote removed the staging
variable; the Read that follows finds the production variable and returns
nil instead of the not-found error. -/
theorem delete_then_read_finds_variable :
    resourceGitlabProjectVariableDelete storeClient ⟨twoScopes, []⟩ managedProduction =
      (⟨[("grp/app", tokenProduction)], [Call.RemoveVariable "grp/app" "TOKEN"]⟩,
        managedProduction, none) ∧
    deleteThenRead storeClient ⟨twoScopes, []⟩ managedProduction =
      (⟨[("grp/app", tokenProduction)],
          [Call.RemoveVariable "grp/app" "TOKEN", Call.ListVariables "grp/app"]⟩,
        managedProduction, none) :=
  ⟨rfl, rfl⟩

/-- C8, amended. No resurrection after Delete on an unambiguous key: for a
managed state (the identifier parses to the state's `project` and `key`), a
remote that honours a successful remove and a project that lists at most one
variable with the state's key, if Delete returns nil and the list call of the
Read performed immediately afterwards succeeds, that Read fails with the
not-found error and leaves the state as it was. -/
theorem delete_then_read_not_found (client : Client σ) (w : World σ) (d : ResourceData)
    (remote' : σ) (vars vars' : List ProjectVariable)
    (hremote : HonoursRemove client)
    (hid : parseTwoPartID d.Id = .ok (d.project, d.key))
    (hbefore : (client.ListVariables w.remote d.project).2 = .ok vars)
    (hsingle : vars.countP (fun x => x.Key = d.key) ≤ 1)
    (hdelete : (resourceGitlabProjectVariableDelete client w d).2.2 = none)
    (hlist : client.ListVariables (resourceGitlabProjectVariableDelete client w d).1.remote
      d.project = (remote', .ok vars')) :
    deleteThenRead client w d =
      (⟨remote', w.calls ++ [Call.RemoveVariable d.project d.key,
          Call.ListVariables d.project]⟩, d,
        some (Error.errorf ("Variable " ++ d.project ++ "/" ++ d.key ++ ", scope:" ++
          d.environment_scope ++ " Not Found"))) := by
  cases hrm : client.RemoveVariable w.remote d.project d.key with
  | mk remote err =>
    have hd : resourceGitlabProjectVariableDelete client w d =
        (⟨remote, w.calls ++ [Call.RemoveVariable d.project d.key]⟩, d, err) := by
      simp [resourceGitlabProjectVariableDelete, hrm, World.record]
    rw [hd] at hdelete hlist
    simp only at hdelete hlist
    subst hdelete
    obtain ⟨pre, x, post, hvars, hx, hvars'⟩ :=
      hremote w.remote remote d.project d.key vars vars' hrm hbefore (by rw [hlist])
    have hcount : (pre ++ post).countP (fun x => x.Key = d.key) = 0 := by
      rw [hvars, List.countP_append, List.countP_cons_of_pos _ _ (by simpa using hx)] at hsingle
      rw [List.countP_append]
      omega
    have hgone : ∀ y ∈ vars', ¬ (y.Key = d.key ∧ y.EnvironmentScope = d.environment_scope) := by
      intro y hy hm
      rw [hvars'] at hy
      have := (List.countP_eq_zero.mp hcount) y hy
      simp [hm.1] at this
    unfold deleteThenRead
    rw [hd]
    have hread := read_scan_none client
      ⟨remote, w.calls ++ [Call.RemoveVariable d.project d.key]⟩ d d.project d.key remote' vars'
      hid hlist ((scanVariables_eq_none_iff d.key d.environment_scope vars').mpr hgone)
    rw [hread]
    simp [World.record, notFound]

/-- Witness of C8, amended: the project holds `REGION` and one `TOKEN`, and
another project holds a `TOKEN` too; after Delete the project still lists
`REGION` and the Read reports not-found. -/
theorem delete_then_read_not_found_witness :
    deleteThenRead storeClient ⟨singleToken, []⟩ managedProduction =
      (⟨[("grp/app", regionProduction), ("other/app", tokenStaging)],
          [Call.RemoveVariable "grp/app" "TOKEN", Call.ListVariables "grp/app"]⟩,
        managedProduction,
        some (Error.errorf "Variable grp/app/TOKEN, scope:production Not Found")) :=
  delete_then_read_not_found storeClient ⟨singleToken, []⟩ managedProduction
    [("grp/app", regionProduction), ("other/app", tokenStaging)]
    [regionProduction, tokenProduction] [regionProduction]
    storeClient_honoursRemove rfl rfl (by decide) rfl rfl

/-- C9. Remote errors are propagated verbatim: when the first remote call of
Create, Read, Update or Delete fails with `e`, the operation returns `e`, the
call log grows by that one call, and the identifier and every field of the
state are as before. -/
theorem remote_error_propagated (stringToVariableType : String → Option VariableTypeValue)
    (client : Client σ) (w : World σ) (d : ResourceData) (remote : σ) (e : Error) :
    (client.CreateVariable w.remote d.project (createOptions stringToVariableType d) =
        (remote, .error e) →
      resourceGitlabProjectVariableCreate stringToVariableType client w d =
        (⟨remote, w.calls ++
          [Call.CreateVariable d.project (createOptions stringToVariableType d)]⟩, d, some e)) ∧
    (∀ project key, parseTwoPartID d.Id = .ok (project, key) →
      client.ListVariables w.remote project = (remote, .error e) →
      resourceGitlabProjectVariableRead client w d =
        (⟨remote, w.calls ++ [Call.ListVariables project]⟩, d, some e)) ∧
    (client.UpdateVariable w.remote d.project d.key (updateOptions stringToVariableType d) =
        (remote, .error e) →
      resourceGitlabProjectVariableUpdate stringToVariableType client w d =
        (⟨remote, w.calls ++
          [Call.UpdateVariable d.project d.key (updateOptions stringToVariableType d)]⟩, d,
          some e)) ∧
    (client.RemoveVariable w.remote d.project d.key = (remote, some e) →
      resourceGitlabProjectVariableDelete client w d =
        (⟨remote, w.calls ++ [Call.RemoveVariable d.project d.key]⟩, d, some e)) := by
  refine ⟨?_, ?_, ?_, ?_⟩
  · intro h
    simp [resourceGitlabProjectVariableCreate, h, World.record]
  · intro project key hid h
    exact read_list_error client w d project key remote e hid h
  · intro h
    simp [resourceGitlabProjectVariableUpdate, h, World.record]
  · intro h
    simp [resourceGitlabProjectVariableDelete, h, World.record]

/-- Witness of C9: the four operations against a remote that answers every
call with a 503. -/
theorem remote_error_propagated_witness :
    resourceGitlabProjectVariableCreate knownVariableType
        (failingClient (Error.remote "503 Service Unavailable")) ⟨(), []⟩ desiredState =
      (⟨(), [Call.CreateVariable "grp/app" (createOptions knownVariableType desiredState)]⟩,
        desiredState, some (Error.remote "503 Service Unavailable")) ∧
    resourceGitlabProjectVariableRead
        (failingClient (Error.remote "503 Service Unavailable")) ⟨(), []⟩ managedProduction =
      (⟨(), [Call.ListVariables "grp/app"]⟩, managedProduction,
        some (Error.remote "503 Service Unavailable")) ∧
    resourceGitlabProjectVariableUpdate knownVariableType
        (failingClient (Error.remote "503 Service Unavailable")) ⟨(), []⟩ managedProduction =
      (⟨(), [Call.UpdateVariable "grp/app" "TOKEN"
          (updateOptions knownVariableType managedProduction)]⟩,
        managedProduction, some (Error.remote "503 Service Unavailable")) ∧
    resourceGitlabProjectVariableDelete
        (failingClient (Error.remote "503 Service Unavailable")) ⟨(), []⟩ managedProduction =
      (⟨(), [Call.RemoveVariable "grp/app" "TOKEN"]⟩, managedProduction,
        some (Error.remote "503 Service Unavailable")) :=
  ⟨(remote_error_propagated knownVariableType
      (failingClient (Error.remote "503 Service Unavailable")) ⟨(), []⟩ desiredState ()
      (Error.remote "503 Service Unavailable")).1 rfl,
    (remote_error_propagated knownVariableType
      (failingClient (Error.remote "503 Service Unavailable")) ⟨(), []⟩ managedProduction ()
      (Error.remote "503 Service Unavailable")).2.1 "grp/app" "TOKEN" rfl rfl,
    (remote_error_propagated knownVariableType
      (failingClient (Error.remote "503 Service Unavailable")) ⟨(), []⟩ managedProduction ()
      (Error.remote "503 Service Unavailable")).2.2.1 rfl,
    (remote_error_propagated knownVariableType
      (failingClient (Error.remote "503 Service Unavailable")) ⟨(), []⟩ managedProduction ()
      (Error.remote "503 Service Unavailable")).2.2.2 rfl⟩

end LifecycleClaims

end Gitlab
